import Mathlib

/-!
Verification development for the tennis-momentum-visualizer core
(`src/utils.py` and `src/data_processor.py`).

Modelling conventions:
* strings are `List Char`; Python `str.split(":")` is `splitOnColon`;
  Python `int(...)` is `pyInt` (optional surrounding whitespace, optional
  sign, then decimal digits; other shapes raise `ValueError`, modelled as
  `none` — underscore grouping and non-ASCII digits are not modelled, no
  input considered here contains them);
* momentum values are exact rationals `ℚ` (the float arithmetic of the
  source carries no rounding-relevant content for the claims considered);
* a pandas `NaN` (empty-series median/max/min, `diff()` at the first row,
  `std` of a series of length ≤ 1, and `0/0` from numpy integer division)
  is modelled as `none` of an `Option` type, since every claim is about
  whether such a value is well defined and how it propagates;
* a pandas boolean series is its 0/1 indicator series, which is how
  `.median()` treats it;
* `pandas.Series.median` sorts and takes the middle element (average of the
  two middle elements for even length), skipping `NaN`s where noted;
  `List.insertionSort` computes the same sorted permutation.
-/

namespace TennisMomentum

/-! ### Time utilities (`src/utils.py`, `format_time` / `parse_time_to_seconds`) -/

/-- The character for one decimal digit (48 is the code of the zero digit). -/
def digitChar (d : Nat) : Char := Char.ofNat (48 + d)

/-- Decimal rendering of a natural number, most significant digit first:
the digit list of Python's unpadded integer formatting. -/
def natToChars (n : Nat) : List Char :=
  if _h : n < 10 then [digitChar n]
  else natToChars (n / 10) ++ [digitChar (n % 10)]
decreasing_by exact Nat.div_lt_self (by omega) (by omega)

/-- Python's `f-string` width-2 zero padding `{m:02d}` for `m < 100`. -/
def pad2 (n : Nat) : List Char :=
  List.replicate (2 - (natToChars n).length) '0' ++ natToChars n

/-- Source `format_time`: `hours = seconds // 3600`, `minutes = (seconds % 3600) // 60`,
`secs = seconds % 60`, rendered `f"{hours:01d}:{minutes:02d}:{secs:02d}"`
(hours unpadded, minutes and seconds zero-padded to two digits). -/
def format_time (seconds : Nat) : List Char :=
  natToChars (seconds / 3600) ++ ':' :: (pad2 (seconds % 3600 / 60) ++ ':' :: pad2 (seconds % 60))

/-- Python `time_str.split(":")` for the one-character separator. -/
def splitOnColon : List Char → List (List Char)
  | [] => [[]]
  | c :: cs =>
    if c = ':' then [] :: splitOnColon cs
    else
      match splitOnColon cs with
      | [] => [[c]]
      | p :: ps => (c :: p) :: ps

/-- Value of a digit list read in base 10 (Python `int` on a digit string). -/
def digitsVal (l : List Char) : Nat :=
  l.foldl (fun a c => 10 * a + (c.toNat - 48)) 0

/-- Parse of a nonempty all-digit character list; `none` otherwise. -/
def digitsToNat (l : List Char) : Option Nat :=
  if l ≠ [] ∧ l.all Char.isDigit then some (digitsVal l) else none

/-- Both-ends whitespace strip, as Python `int` applies to its argument. -/
def trimWs (l : List Char) : List Char :=
  ((l.dropWhile Char.isWhitespace).reverse.dropWhile Char.isWhitespace).reverse

/-- Sign-and-digits step of Python `int(s)`, applied after whitespace strip. -/
def pyIntCore : List Char → Option Int
  | [] => none
  | c :: r =>
    if c = '+' then (digitsToNat r).map Int.ofNat
    else if c = '-' then (digitsToNat r).map fun n => -(n : Int)
    else (digitsToNat (c :: r)).map Int.ofNat

/-- Python `int(s)` on a string: optional surrounding whitespace, optional
single sign, then at least one decimal digit; `none` models `ValueError`. -/
def pyInt (l : List Char) : Option Int :=
  pyIntCore (trimWs l)

/-- Source `parse_time_to_seconds`: split on `":"`; three fields are
hours/minutes/seconds, two fields are minutes/seconds, otherwise the value of
the first field alone; any `ValueError` from `int(...)` yields 0.  The list
patterns of length 3 and 2 are the source's `len(parts)` tests. -/
def parse_time_to_seconds (time_str : List Char) : Int :=
  match splitOnColon time_str with
  | [a, b, c] =>
    match pyInt a, pyInt b, pyInt c with
    | some h, some m, some s => h * 3600 + m * 60 + s
    | _, _, _ => 0
  | [a, b] =>
    match pyInt a, pyInt b with
    | some m, some s => m * 60 + s
    | _, _ => 0
  | parts =>
    match pyInt (parts.headD []) with
    | some v => v
    | none => 0

/-! ### Data model (`src/data_processor.py`)

One `Point` is one row of the processed frame, restricted to the columns the
momentum statistics read: `PointNumber`, `cumulative_seconds`, `P1Momentum`,
`P2Momentum` (nulls already normalized to 0 by `process_match_data`).  The
constant per-match name columns `player1`/`player2` are represented in peak
records by the tags 1 and 2. -/

structure Point where
  pointNumber : Int
  cumulative_seconds : Int
  p1Momentum : ℚ
  p2Momentum : ℚ
deriving DecidableEq

/-- Middle element of the sorted list (mean of the two middle elements for even
length), as `pandas.Series.median` computes on a non-empty series. -/
def medianVal (l : List ℚ) : ℚ :=
  let s := List.insertionSort (· ≤ ·) l
  if l.length % 2 = 1 then s.getD (l.length / 2) 0
  else (s.getD (l.length / 2 - 1) 0 + s.getD (l.length / 2) 0) / 2

/-- `pandas.Series.median`: `NaN` (modelled `none`) on an empty series. -/
def median : List ℚ → Option ℚ
  | [] => none
  | a :: l => some (medianVal (a :: l))

/-- `pandas.Series.mean`: sum over length, `NaN` on an empty series. -/
def mean (l : List ℚ) : Option ℚ :=
  match l with
  | [] => none
  | _ => some (l.sum / l.length)

/-- Source line 54: `total_points = len(df)`. -/
def total_points (df : List Point) : Nat := df.length

/-- Source line 98: `momentum_diff = df["P1Momentum"] - df["P2Momentum"]`. -/
def momentum_diffs (df : List Point) : List ℚ :=
  df.map fun p => p.p1Momentum - p.p2Momentum

/-- The values `|diff[i] - diff[i-1]|` for `i = 1, …, n-1`: the non-`NaN` part
of `momentum_diff.diff().abs()`. -/
def pairwiseChanges (df : List Point) : List ℚ :=
  List.zipWith (fun prev cur => |cur - prev|) (momentum_diffs df) (momentum_diffs df).tail

/-- Source line 99: `abs(momentum_diff.diff()).fillna(0)` — the first row's
`NaN` difference is replaced by 0. -/
def swing_changes (df : List Point) : List ℚ :=
  match df with
  | [] => []
  | _ => 0 :: pairwiseChanges df

/-- Source line 100: `(momentum_swings > momentum_swings.median()).sum()`.
On an empty frame the median is `NaN` and every comparison is false. -/
def momentum_swings_count (df : List Point) : Nat :=
  match median (swing_changes df) with
  | none => 0
  | some m => (swing_changes df).countP fun c => decide (m < c)

/-- Output record of `_calculate_momentum_stats` (source lines 80–115).
`Option` fields are `NaN`-able: empty-series mean/max/min, and the dominance
percentages, whose source expression `(count / len(df)) * 100` is numpy
`0/0 = NaN` when the frame is empty (there is no emptiness guard). -/
structure MomentumStats where
  p1_avg_momentum : Option ℚ
  p2_avg_momentum : Option ℚ
  p1_max_momentum : Option ℚ
  p2_max_momentum : Option ℚ
  p1_min_momentum : Option ℚ
  p2_min_momentum : Option ℚ
  momentum_swings : Nat
  p1_dominant_points : Nat
  p2_dominant_points : Nat
  p1_dominance_pct : Option ℚ
  p2_dominance_pct : Option ℚ
deriving DecidableEq

/-- Source `_calculate_momentum_stats` (both momentum columns present). -/
def _calculate_momentum_stats (df : List Point) : MomentumStats :=
  let p1 := df.map Point.p1Momentum
  let p2 := df.map Point.p2Momentum
  let p1_dom := df.countP fun p => decide (p.p2Momentum < p.p1Momentum)
  let p2_dom := df.countP fun p => decide (p.p1Momentum < p.p2Momentum)
  { p1_avg_momentum := mean p1
    p2_avg_momentum := mean p2
    p1_max_momentum := p1.max?
    p2_max_momentum := p2.max?
    p1_min_momentum := p1.min?
    p2_min_momentum := p2.min?
    momentum_swings := momentum_swings_count df
    p1_dominant_points := p1_dom
    p2_dominant_points := p2_dom
    p1_dominance_pct :=
      if df.length = 0 then none else some ((p1_dom : ℚ) / df.length * 100)
    p2_dominance_pct :=
      if df.length = 0 then none else some ((p2_dom : ℚ) / df.length * 100) }

/-! ### Key Moment Detector (`identify_key_moments`, source lines 232–276) -/

/-- Source line 238: `momentum_change = momentum_diff.diff().abs()`.  Unlike
the swing computation above there is no `fillna(0)`, so the first row's entry
is `NaN` (`none`). -/
def changesOpt (df : List Point) : List (Option ℚ) :=
  match df with
  | [] => []
  | _ => none :: (pairwiseChanges df).map some

/-- The median in source line 241: `momentum_change.median()` skips the `NaN`
first entry (pandas `skipna` default). -/
def shiftMedian (df : List Point) : Option ℚ :=
  median ((changesOpt df).filterMap id)

/-- The mask `momentum_change > momentum_change.median() * threshold` of source
line 241; every comparison involving `NaN` is false. -/
def shiftFlag (c m : Option ℚ) (t : ℚ) : Bool :=
  match c, m with
  | some cv, some mv => decide (mv * t < cv)
  | _, _ => false

/-- One emitted `momentum_shifts` record (source lines 244–252): point number,
elapsed seconds, the change magnitude at that row, both momentum values. -/
structure ShiftRecord where
  point_number : Int
  time : Int
  momentum_change : Option ℚ
  p1_momentum : ℚ
  p2_momentum : ℚ
deriving DecidableEq

/-- One emitted `peak_moments` record (source lines 258–274); `player` is 1 or
2, standing for the constant `player1`/`player2` name columns. -/
structure PeakRecord where
  player : Nat
  point_number : Int
  momentum : ℚ
deriving DecidableEq

/-- Output of `identify_key_moments`; `turning_points` is never populated. -/
structure KeyMoments where
  momentum_shifts : List ShiftRecord
  peak_moments : List PeakRecord
  turning_points : List ShiftRecord
deriving DecidableEq

def mkShiftRecord (p : Point) (c : Option ℚ) : ShiftRecord :=
  { point_number := p.pointNumber
    time := p.cumulative_seconds
    momentum_change := c
    p1_momentum := p.p1Momentum
    p2_momentum := p.p2Momentum }

/-- Source `identify_key_moments` (momentum columns present): rows whose change
exceeds `median * threshold` are emitted in row order; the rows attaining
`df["P1Momentum"].max()` are emitted as player-1 peaks, then the rows attaining
`df["P2Momentum"].max()` as player-2 peaks. -/
def identify_key_moments (df : List Point) (threshold : ℚ) : KeyMoments :=
  let m := shiftMedian df
  let shifts := ((df.zip (changesOpt df)).filter fun pc => shiftFlag pc.2 m threshold).map
    fun pc => mkShiftRecord pc.1 pc.2
  let p1peaks :=
    match (df.map Point.p1Momentum).max? with
    | none => []
    | some mx => (df.filter fun p => decide (p.p1Momentum = mx)).map
        fun p => ({ player := 1, point_number := p.pointNumber, momentum := p.p1Momentum } : PeakRecord)
  let p2peaks :=
    match (df.map Point.p2Momentum).max? with
    | none => []
    | some mx => (df.filter fun p => decide (p.p2Momentum = mx)).map
        fun p => ({ player := 2, point_number := p.pointNumber, momentum := p.p2Momentum } : PeakRecord)
  { momentum_shifts := shifts, peak_moments := p1peaks ++ p2peaks, turning_points := [] }

/-- The shift rule exactly as claim C4 words it: `change[0] = 0` (not `NaN`)
and the median is taken over all points, the first point's 0 included. -/
def claimShifts (df : List Point) (t : ℚ) : List ShiftRecord :=
  match median (swing_changes df) with
  | none => []
  | some m => ((df.zip (swing_changes df)).filter fun pc => decide (m * t < pc.2)).map
      fun pc => mkShiftRecord pc.1 (some pc.2)

/-- The amended C4 rule: for 0-based index `i ≥ 1` a point is flagged iff
`|diff[i] − diff[i−1]| > m·t`, where `m` is the median of those changes over
indices 1..n−1 only (the first row's change is `NaN` and pandas skips it in
the median); one record per flagged point, in ascending point order. -/
def specShifts (df : List Point) (t : ℚ) : List ShiftRecord :=
  (List.range df.length).filterMap fun i =>
    match i with
    | 0 => none
    | j + 1 =>
      match median (pairwiseChanges df), (pairwiseChanges df)[j]?, df[j + 1]? with
      | some mv, some c, some p =>
        if mv * t < c then some (mkShiftRecord p (some c)) else none
      | _, _, _ => none

/-- Concrete three-point match for claim C4: `P1Momentum = [0, 1, 4]`,
`P2Momentum = [0, 0, 0]`, so the change series is `[NaN, 1, 3]`. -/
def C4df : List Point :=
  [{ pointNumber := 1, cumulative_seconds := 0, p1Momentum := 0, p2Momentum := 0 },
   { pointNumber := 2, cumulative_seconds := 0, p1Momentum := 1, p2Momentum := 0 },
   { pointNumber := 3, cumulative_seconds := 0, p1Momentum := 4, p2Momentum := 0 }]

/-- Concrete two-point match used to instantiate claim C7's hypotheses. -/
def C7df : List Point :=
  [{ pointNumber := 1, cumulative_seconds := 0, p1Momentum := 0, p2Momentum := 0 },
   { pointNumber := 2, cumulative_seconds := 0, p1Momentum := 3, p2Momentum := 0 }]

/-- The spec P7 scenario for claim C8: a 4-point match with
`P1Momentum = [1, 5, 1, 5]` and `P2Momentum = [0, 0, 0, 0]`. -/
def C8df : List Point :=
  [{ pointNumber := 1, cumulative_seconds := 0, p1Momentum := 1, p2Momentum := 0 },
   { pointNumber := 2, cumulative_seconds := 0, p1Momentum := 5, p2Momentum := 0 },
   { pointNumber := 3, cumulative_seconds := 0, p1Momentum := 1, p2Momentum := 0 },
   { pointNumber := 4, cumulative_seconds := 0, p1Momentum := 5, p2Momentum := 0 }]

/-! ### Consistency Scorer (`calculate_momentum_consistency`, source lines 200–229) -/

/-- The pandas boolean series `player > opponent` as its 0/1 indicator series
(positionally aligned; the two momentum series of one match have equal
length). -/
def gtIndicator (player opponent : List ℚ) : List ℚ :=
  List.zipWith (fun x y => if y < x then (1 : ℚ) else 0) player opponent

/-- Source line 203: `ahead_ratio = (player > opponent).median()` — the
*median* of the indicator series (this is what the source computes; its own
comment says "% of time ahead of opponent"). -/
def ahead_ratio (player opponent : List ℚ) : Option ℚ :=
  median (gtIndicator player opponent)

/-- Source lines 206–207: `avg = player.median()`;
`above_own_avg = (player > avg).median()` — again a median of an indicator
series. -/
def above_own_avg (player : List ℚ) : Option ℚ :=
  (median player).bind fun avg =>
    median (player.map fun x => if avg < x then (1 : ℚ) else 0)

/-- Pandas sample variance (`ddof = 1`): `Σ (x − mean)² / (n − 1)`. -/
def sampleVarQ (l : List ℚ) : ℚ :=
  (l.map fun x => (x - l.sum / l.length) ^ 2).sum / ((l.length : ℚ) - 1)

/-- Source line 210: `std_dev = player.std()` — `NaN` for a series of length
≤ 1 (`ddof = 1` divides by `n − 1`), otherwise the square root of the sample
variance. -/
noncomputable def std_dev (l : List ℚ) : Option ℝ :=
  if l.length ≤ 1 then none else some (Real.sqrt (sampleVarQ l))

/-- Source line 211: `range_ = player.max() - player.min()` (`NaN` on an empty
series). -/
def range_ (l : List ℚ) : Option ℚ :=
  match l.max?, l.min? with
  | some mx, some mn => some (mx - mn)
  | _, _ => none

/-- Source line 212: `stability = 1 - (std_dev / (range_ + epsilon))`. -/
noncomputable def stability (player : List ℚ) (epsilon : ℚ) : Option ℝ :=
  (std_dev player).bind fun sd =>
    (range_ player).map fun r => 1 - sd / ((r : ℝ) + (epsilon : ℝ))

/-- Source line 217's slice `player.iloc[-n // 5 :]`: Python floor division
gives `(-n) // 5 = -⌈n/5⌉`, and a negative start index keeps the last `⌈n/5⌉`
elements of the series. -/
def lateSlice (l : List ℚ) : List ℚ :=
  l.drop ((l.length : Int) + Int.fdiv (-(l.length : Int)) 5).toNat

/-- Source lines 214–219: `growth_score = (late_avg − early_avg) / (range_ +
epsilon)` clamped to `[0, 1]`, where `early_avg` is the median of
`player.iloc[: n // 5]` and `late_avg` the median of `player.iloc[-n // 5 :]`;
the `NaN` of an empty early slice (whenever `n < 5`) propagates. -/
def growth_score (player : List ℚ) (epsilon : ℚ) : Option ℚ :=
  (median (player.take (player.length / 5))).bind fun early_avg =>
    (median (lateSlice player)).bind fun late_avg =>
      (range_ player).map fun r =>
        min (max ((late_avg - early_avg) / (r + epsilon)) 0) 1

/-- Python's `round(x, 2)`: scale by 100 and round to the nearest integer,
ties to even (modelled exactly over the reals; binary-float representation
effects are not modelled). -/
noncomputable def pyRound2 (x : ℝ) : ℝ :=
  let y := x * 100
  let f := ⌊y⌋
  let r :=
    if y - f < 1 / 2 then f
    else if 1 / 2 < y - f then f + 1
    else if f % 2 = 0 then f else f + 1
  (r : ℝ) / 100

/-- Source `calculate_momentum_consistency`: the weighted sum
`(0.3·ahead_ratio + 0.25·above_own_avg + 0.2·stability + 0.25·growth_score)·10`
rounded to two decimals; a `NaN` in any sub-metric propagates to the result. -/
noncomputable def calculate_momentum_consistency
    (player opponent : List ℚ) (epsilon : ℚ) : Option ℝ :=
  (ahead_ratio player opponent).bind fun a =>
    (above_own_avg player).bind fun b =>
      (stability player epsilon).bind fun st =>
        (growth_score player epsilon).map fun (g : ℚ) =>
          pyRound2 ((0.3 * (a : ℝ) + 0.25 * (b : ℝ) + 0.2 * st + 0.25 * (g : ℝ)) * 10)

/-- The growth sub-metric exactly as claim C5 words it: the late segment is
the *last ⌊n/5⌋ points* of the series (the source instead keeps the last
⌈n/5⌉). -/
def claimGrowth (player : List ℚ) (epsilon : ℚ) : Option ℚ :=
  (median (player.take (player.length / 5))).bind fun early_avg =>
    (median (player.drop (player.length - player.length / 5))).bind fun late_avg =>
      (range_ player).map fun r =>
        min (max ((late_avg - early_avg) / (r + epsilon)) 0) 1

/-- Six-point series distinguishing the two late-segment slices for claim C5:
the last-⌈6/5⌉ = 2 points are `[0, 6]` (median 3) while the claim's last
⌊6/5⌋ = 1 point is `[6]` (median 6). -/
def C5player : List ℚ := [0, 0, 0, 0, 0, 6]

/-! ### Proofs -/

lemma natToChars_eq (n : Nat) :
    natToChars n = if n < 10 then [digitChar n] else natToChars (n / 10) ++ [digitChar (n % 10)] := by
  rw [natToChars]
  split <;> rfl

lemma natToChars_ne_nil (n : Nat) : natToChars n ≠ [] := by
  rw [natToChars_eq]
  split
  · simp
  · simp

lemma toNat_digitChar {d : Nat} (h : d < 10) : (digitChar d).toNat = 48 + d := by
  interval_cases d <;> rfl

lemma isDigit_digitChar {d : Nat} (h : d < 10) : (digitChar d).isDigit = true := by
  interval_cases d <;> rfl

lemma natToChars_all_digit (n : Nat) : ∀ c ∈ natToChars n, c.isDigit = true := by
  induction n using Nat.strong_induction_on with
  | _ n ih =>
    rw [natToChars_eq]
    split
    · intro c hc
      rcases List.mem_singleton.mp hc with rfl
      exact isDigit_digitChar (by omega)
    · intro c hc
      rcases List.mem_append.mp hc with h | h
      · exact ih (n / 10) (Nat.div_lt_self (by omega) (by omega)) c h
      · rcases List.mem_singleton.mp h with rfl
        exact isDigit_digitChar (Nat.mod_lt _ (by omega))

lemma digitsVal_append_digit (l : List Char) (c : Char) :
    digitsVal (l ++ [c]) = 10 * digitsVal l + (c.toNat - 48) := by
  simp [digitsVal, List.foldl_append]

lemma digitsVal_natToChars (n : Nat) : digitsVal (natToChars n) = n := by
  induction n using Nat.strong_induction_on with
  | _ n ih =>
    rw [natToChars_eq]
    split
    · next h =>
      simp [digitsVal, toNat_digitChar h]
    · next h =>
      rw [digitsVal_append_digit, ih (n / 10) (Nat.div_lt_self (by omega) (by omega)),
        toNat_digitChar (Nat.mod_lt _ (by omega))]
      omega

lemma digitsVal_replicate_zero (k : Nat) (l : List Char) :
    digitsVal (List.replicate k '0' ++ l) = digitsVal l := by
  induction k with
  | zero => simp
  | succ m ih =>
    have : List.replicate (m + 1) '0' ++ l = '0' :: (List.replicate m '0' ++ l) := by
      simp [List.replicate]
    rw [this]
    simpa [digitsVal] using ih

lemma pad2_all_digit (n : Nat) : ∀ c ∈ pad2 n, c.isDigit = true := by
  intro c hc
  rcases List.mem_append.mp hc with h | h
  · rcases List.eq_of_mem_replicate h with rfl
    rfl
  · exact natToChars_all_digit n c h

lemma pad2_ne_nil (n : Nat) : pad2 n ≠ [] := by
  intro h
  have := natToChars_ne_nil n
  rcases List.append_eq_nil.mp h with ⟨-, h2⟩
  exact this h2

lemma digitsVal_pad2 (n : Nat) : digitsVal (pad2 n) = n := by
  rw [pad2, digitsVal_replicate_zero, digitsVal_natToChars]

lemma isDigit_not_ws {c : Char} (h : c.isDigit = true) : c.isWhitespace = false := by
  simp only [Char.isDigit, Bool.and_eq_true, decide_eq_true_eq] at h
  simp only [Char.isWhitespace, Bool.or_eq_false_iff, decide_eq_false_iff_not]
  refine ⟨⟨⟨?_, ?_⟩, ?_⟩, ?_⟩ <;> rintro rfl <;> revert h <;> decide

lemma dropWhile_of_all_neg {p : Char → Bool} :
    ∀ l : List Char, (∀ c ∈ l, p c = false) → l.dropWhile p = l := by
  intro l h
  cases l with
  | nil => rfl
  | cons c cs =>
    have : p c = false := h c (List.mem_cons_self _ _)
    simp [List.dropWhile, this]

lemma trimWs_of_digits {l : List Char} (h : ∀ c ∈ l, c.isDigit = true) : trimWs l = l := by
  have hws : ∀ c ∈ l, c.isWhitespace = false := fun c hc => isDigit_not_ws (h c hc)
  have h1 : l.dropWhile Char.isWhitespace = l := dropWhile_of_all_neg l hws
  have hws2 : ∀ c ∈ l.reverse, c.isWhitespace = false := fun c hc =>
    hws c (List.mem_reverse.mp hc)
  have h2 : l.reverse.dropWhile Char.isWhitespace = l.reverse := dropWhile_of_all_neg _ hws2
  rw [trimWs, h1, h2, List.reverse_reverse]

lemma isDigit_ne_plus {c : Char} (h : c.isDigit = true) : c ≠ '+' := by
  intro hc; rw [hc] at h; exact absurd h (by decide)

lemma isDigit_ne_minus {c : Char} (h : c.isDigit = true) : c ≠ '-' := by
  intro hc; rw [hc] at h; exact absurd h (by decide)

lemma isDigit_ne_colon {c : Char} (h : c.isDigit = true) : c ≠ ':' := by
  intro hc; rw [hc] at h; exact absurd h (by decide)

lemma pyInt_digits {l : List Char} (hne : l ≠ []) (hd : ∀ c ∈ l, c.isDigit = true) :
    pyInt l = some (digitsVal l : Int) := by
  rw [pyInt, trimWs_of_digits hd]
  cases l with
  | nil => exact absurd rfl hne
  | cons c r =>
    have hc : c.isDigit = true := hd c (List.mem_cons_self _ _)
    rw [pyIntCore, if_neg (isDigit_ne_plus hc), if_neg (isDigit_ne_minus hc)]
    have : digitsToNat (c :: r) = some (digitsVal (c :: r)) := by
      rw [digitsToNat, if_pos]
      exact ⟨by simp, List.all_eq_true.mpr hd⟩
    rw [this]
    rfl

lemma splitOnColon_append (A : List Char) (hA : ∀ c ∈ A, c ≠ ':') :
    ∀ rest p ps, splitOnColon rest = p :: ps →
      splitOnColon (A ++ rest) = (A ++ p) :: ps := by
  induction A with
  | nil => intro rest p ps h; simpa using h
  | cons c A' ih =>
    intro rest p ps h
    have hc : c ≠ ':' := hA c (List.mem_cons_self _ _)
    have hA' : ∀ x ∈ A', x ≠ ':' := fun x hx => hA x (List.mem_cons_of_mem _ hx)
    have h2 := ih hA' rest p ps h
    simp only [List.cons_append, splitOnColon, if_neg hc, List.append_eq, h2]

lemma splitOnColon_noColon (A : List Char) (hA : ∀ c ∈ A, c ≠ ':') :
    splitOnColon A = [A] := by
  have := splitOnColon_append A hA [] [] [] rfl
  simpa using this

lemma splitOnColon_format (h m s : Nat) :
    splitOnColon (format_time (h * 3600 + m * 60 + s)) =
      [natToChars ((h * 3600 + m * 60 + s) / 3600),
       pad2 ((h * 3600 + m * 60 + s) % 3600 / 60),
       pad2 ((h * 3600 + m * 60 + s) % 60)] := by
  set t := h * 3600 + m * 60 + s
  have digit_not_colon : ∀ (l : List Char), (∀ c ∈ l, c.isDigit = true) → ∀ c ∈ l, c ≠ ':' :=
    fun l hl c hc => isDigit_ne_colon (hl c hc)
  have h3 : splitOnColon (pad2 (t % 60)) = [pad2 (t % 60)] :=
    splitOnColon_noColon _ (digit_not_colon _ (pad2_all_digit _))
  have h2 : splitOnColon (':' :: pad2 (t % 60)) = [] :: [pad2 (t % 60)] := by
    simp [splitOnColon, h3]
  have h1 : splitOnColon (pad2 (t % 3600 / 60) ++ ':' :: pad2 (t % 60)) =
      (pad2 (t % 3600 / 60)) :: [pad2 (t % 60)] := by
    have := splitOnColon_append (pad2 (t % 3600 / 60))
      (digit_not_colon _ (pad2_all_digit _)) _ _ _ h2
    simpa using this
  have h0 : splitOnColon (':' :: (pad2 (t % 3600 / 60) ++ ':' :: pad2 (t % 60))) =
      [] :: (pad2 (t % 3600 / 60)) :: [pad2 (t % 60)] := by
    simp [splitOnColon, h1]
  have := splitOnColon_append (natToChars (t / 3600))
    (digit_not_colon _ (natToChars_all_digit _)) _ _ _ h0
  simpa [format_time] using this

/-- C9 (spec P1/P2): round trip `parse_time_to_seconds (format_time s) = s` for every
non-negative integer `s`, and the four concrete parse examples `"1:02:03" = 3723`,
`"5:30" = 330`, `"45" = 45`, `"bad" = 0`. -/
theorem C9_parse_format_roundtrip :
    (∀ s : Nat, parse_time_to_seconds (format_time s) = (s : Int))
    ∧ parse_time_to_seconds ['1', ':', '0', '2', ':', '0', '3'] = 3723
    ∧ parse_time_to_seconds ['5', ':', '3', '0'] = 330
    ∧ parse_time_to_seconds ['4', '5'] = 45
    ∧ parse_time_to_seconds ['b', 'a', 'd'] = 0 := by
  refine ⟨?_, by decide, by decide, by decide, by decide⟩
  intro s
  have hsplit := splitOnColon_format (s / 3600) (s % 3600 / 60) (s % 60)
  have hs : s / 3600 * 3600 + s % 3600 / 60 * 60 + s % 60 = s := by omega
  rw [hs] at hsplit
  have e1 : pyInt (natToChars (s / 3600)) = some (digitsVal (natToChars (s / 3600)) : Int) :=
    pyInt_digits (natToChars_ne_nil _) (natToChars_all_digit _)
  have e2 : pyInt (pad2 (s % 3600 / 60)) = some (digitsVal (pad2 (s % 3600 / 60)) : Int) :=
    pyInt_digits (pad2_ne_nil _) (pad2_all_digit _)
  have e3 : pyInt (pad2 (s % 60)) = some (digitsVal (pad2 (s % 60)) : Int) :=
    pyInt_digits (pad2_ne_nil _) (pad2_all_digit _)
  rw [parse_time_to_seconds, hsplit]
  simp only [e1, e2, e3, digitsVal_natToChars, digitsVal_pad2]
  omega

/-- C10: with four or more colon-separated fields whose first field parses as an
integer `k`, `parse_time_to_seconds` returns `k` (the value of the first field
alone), not 0 and not a combination of the remaining fields. -/
theorem C10_four_or_more_fields (s : List Char) (k : Int)
    (h4 : 4 ≤ (splitOnColon s).length)
    (hk : pyInt ((splitOnColon s).headD []) = some k) :
    parse_time_to_seconds s = k := by
  rcases hp : splitOnColon s with - | ⟨a, - | ⟨b, - | ⟨c, - | ⟨d, e⟩⟩⟩⟩
  · rw [hp] at h4; simp at h4
  · rw [hp] at h4; simp at h4
  · rw [hp] at h4; simp at h4
  · rw [hp] at h4; simp at h4
  · rw [hp] at hk
    have hk' : pyInt a = some k := by simpa using hk
    rw [parse_time_to_seconds, hp]
    show (match pyInt ((a :: b :: c :: d :: e).headD []) with | some v => v | none => 0) = k
    simp only [List.headD_cons, hk']

/-- C10 witness: the concrete input `"1:02:03:04"` has four fields, the first
parses as 1, and the parser returns 1. -/
theorem C10_witness :
    4 ≤ (splitOnColon ['1', ':', '0', '2', ':', '0', '3', ':', '0', '4']).length
    ∧ pyInt ((splitOnColon ['1', ':', '0', '2', ':', '0', '3', ':', '0', '4']).headD []) = some 1
    ∧ parse_time_to_seconds ['1', ':', '0', '2', ':', '0', '3', ':', '0', '4'] = 1 :=
  ⟨by decide, by decide,
    C10_four_or_more_fields ['1', ':', '0', '2', ':', '0', '3', ':', '0', '4'] 1
      (by decide) (by decide)⟩

/-- C3 (spec §4.3 guard / P4): for the empty Point sequence the source divides
`0 / len(df)` with `len(df) = 0`, so both dominance percentages are numpy
`NaN`, not the 0 the spec's guard requires. -/
theorem C3_empty_dominance_pct_nan :
    (_calculate_momentum_stats []).p1_dominance_pct = none
    ∧ (_calculate_momentum_stats []).p2_dominance_pct = none :=
  ⟨rfl, rfl⟩

lemma countP_momentum_trichotomy (df : List Point) :
    (df.countP fun p => decide (p.p2Momentum < p.p1Momentum))
      + (df.countP fun p => decide (p.p1Momentum < p.p2Momentum))
      + (df.countP fun p => decide (p.p1Momentum = p.p2Momentum)) = df.length := by
  induction df with
  | nil => rfl
  | cons p rest ih =>
    rcases lt_trichotomy p.p1Momentum p.p2Momentum with h | h | h
    · have h1 : ¬ p.p2Momentum < p.p1Momentum := not_lt_of_gt h
      have h2 : p.p1Momentum ≠ p.p2Momentum := ne_of_lt h
      simp [List.countP_cons, h, h1, h2]
      omega
    · have h1 : ¬ p.p2Momentum < p.p1Momentum := by rw [h]; exact lt_irrefl _
      have h2 : ¬ p.p1Momentum < p.p2Momentum := by rw [h]; exact lt_irrefl _
      simp [List.countP_cons, h, h1, h2]
      omega
    · have h1 : ¬ p.p1Momentum < p.p2Momentum := not_lt_of_gt h
      have h2 : p.p1Momentum ≠ p.p2Momentum := ne_of_gt h
      simp [List.countP_cons, h, h1, h2]
      omega

/-- C6 (spec P3): `p1_dominant_points + p2_dominant_points + #{equal-momentum points}
= total_points`, and therefore `p1_dominant_points + p2_dominant_points ≤ total_points`. -/
theorem C6_dominance_partition (df : List Point) :
    (_calculate_momentum_stats df).p1_dominant_points
        + (_calculate_momentum_stats df).p2_dominant_points
        + df.countP (fun p => decide (p.p1Momentum = p.p2Momentum)) = total_points df
    ∧ (_calculate_momentum_stats df).p1_dominant_points
        + (_calculate_momentum_stats df).p2_dominant_points ≤ total_points df := by
  have h := countP_momentum_trichotomy df
  constructor
  · simpa [_calculate_momentum_stats, total_points] using h
  · simp only [_calculate_momentum_stats, total_points]
    omega

lemma filterMap_id_map_some (l : List ℚ) : (l.map some).filterMap id = l := by
  induction l with
  | nil => rfl
  | cons a l ih => simp [List.filterMap_cons, ih]

lemma pairwiseChanges_nil : pairwiseChanges [] = [] := rfl

lemma filterMap_id_changesOpt (df : List Point) :
    (changesOpt df).filterMap id = pairwiseChanges df := by
  cases df with
  | nil => rfl
  | cons p rest =>
    show ((none :: (pairwiseChanges (p :: rest)).map some).filterMap id) = _
    rw [List.filterMap_cons_none rfl, filterMap_id_map_some]

lemma length_pairwiseChanges (p : Point) (rest : List Point) :
    (pairwiseChanges (p :: rest)).length = rest.length := by
  simp [pairwiseChanges, momentum_diffs]

lemma zip_filter_map_eq_range {α β γ : Type} (q : β → Bool) (f2 : α → β → γ) :
    ∀ (rs : List α) (cs : List β), rs.length = cs.length →
      (((rs.zip cs).filter fun pc => q pc.2).map fun pc => f2 pc.1 pc.2)
        = (List.range rs.length).filterMap fun j =>
            match cs[j]?, rs[j]? with
            | some c, some p => if q c then some (f2 p c) else none
            | _, _ => none := by
  intro rs
  induction rs with
  | nil => intro cs h; rfl
  | cons r rs' ih =>
    intro cs h
    cases cs with
    | nil => simp at h
    | cons c cs' =>
      have hlen : rs'.length = cs'.length := by simpa using h
      have hcomp : ((fun j => match (c :: cs')[j]?, (r :: rs')[j]? with
            | some c, some p => if q c then some (f2 p c) else none
            | _, _ => none) ∘ Nat.succ)
          = fun j => match cs'[j]?, rs'[j]? with
            | some c, some p => if q c then some (f2 p c) else none
            | _, _ => none := by
        funext j
        simp only [Function.comp_apply, List.getElem?_cons_succ]
      simp only [List.zip_cons_cons, List.filter_cons, List.length_cons,
        List.range_succ_eq_map, List.filterMap_cons, List.getElem?_cons_zero,
        List.filterMap_map, hcomp]
      cases hq : q c
      · simp [hq]
        exact ih cs' hlen
      · simp [hq]
        exact ih cs' hlen

/-- C4 amended: `identify_key_moments` flags exactly the points `i ≥ 1` with
`|diff[i] − diff[i−1]| > m·t`, where `m` is the median of the change values of
the points after the first (the first point's change is `NaN`, excluded from
the median), emitted in ascending point order with no de-duplication or cap. -/
theorem C4_shift_rule (df : List Point) (t : ℚ) :
    (identify_key_moments df t).momentum_shifts = specShifts df t := by
  cases df with
  | nil => rfl
  | cons p0 rest =>
    have hmed : shiftMedian (p0 :: rest) = median (pairwiseChanges (p0 :: rest)) := by
      rw [shiftMedian, filterMap_id_changesOpt]
    cases hm : median (pairwiseChanges (p0 :: rest)) with
    | none =>
      have hpw : pairwiseChanges (p0 :: rest) = [] := by
        rcases hp : pairwiseChanges (p0 :: rest) with - | ⟨a, l⟩
        · rfl
        · rw [hp] at hm; simp [median] at hm
      have hrest : rest = [] := by
        have := length_pairwiseChanges p0 rest
        rw [hpw] at this
        exact List.length_eq_zero.mp this.symm
      subst hrest
      rfl
    | some mv =>
      simp only [identify_key_moments, hmed, hm, specShifts]
      have hzip : (p0 :: rest).zip (changesOpt (p0 :: rest))
          = (p0, none) :: rest.zip ((pairwiseChanges (p0 :: rest)).map some) := by
        show (p0 :: rest).zip (none :: (pairwiseChanges (p0 :: rest)).map some) = _
        rw [List.zip_cons_cons]
      rw [hzip, List.filter_cons, if_neg (by simp [shiftFlag])]
      have hlen : rest.length = ((pairwiseChanges (p0 :: rest)).map some).length := by
        simp [length_pairwiseChanges]
      rw [zip_filter_map_eq_range (fun oc => shiftFlag oc (some mv) t)
        (fun p oc => mkShiftRecord p oc) rest ((pairwiseChanges (p0 :: rest)).map some) hlen]
      rw [List.length_cons, List.range_succ_eq_map]
      rw [List.filterMap_cons_none rfl, List.filterMap_map]
      refine (List.filterMap_congr ?_).symm
      intro j hj
      simp only [Function.comp_apply, List.getElem?_cons_succ, List.getElem?_map]
      cases hpwj : (pairwiseChanges (p0 :: rest))[j]? with
      | none => rfl
      | some cv =>
        cases hrj : rest[j]? with
        | none => rfl
        | some p =>
          show (if mv * t < cv then _ else _) = _
          by_cases hc : mv * t < cv
          · rw [if_pos hc]
            show _ = (if shiftFlag (some cv) (some mv) t = true then _ else _)
            rw [if_pos (by simp [shiftFlag, hc])]
          · rw [if_neg hc]
            show _ = (if shiftFlag (some cv) (some mv) t = true then _ else _)
            rw [if_neg (by simp [shiftFlag, hc])]

/-- C4 counterexample: on the three-point match with `P1Momentum = [0, 1, 4]`
(all `P2Momentum` 0) and threshold 2, the code's median of `[NaN, 1, 3]` is 2
and nothing is flagged, while the claim's median of `[0, 1, 3]` is 1 and the
claim demands the third point (change 3 > 1·2) be flagged. -/
theorem C4_counterexample :
    (identify_key_moments C4df 2).momentum_shifts = []
    ∧ claimShifts C4df 2 =
        [mkShiftRecord
          { pointNumber := 3, cumulative_seconds := 0, p1Momentum := 4, p2Momentum := 0 }
          (some 3)]
    ∧ claimShifts C4df 2 ≠ (identify_key_moments C4df 2).momentum_shifts := by
  have hpw : pairwiseChanges C4df = [1, 3] := by
    norm_num [pairwiseChanges, momentum_diffs, C4df, List.zipWith, abs_of_nonneg]
  have hco : changesOpt C4df = [none, some 1, some 3] := by
    have : changesOpt C4df = none :: (pairwiseChanges C4df).map some := rfl
    rw [this, hpw]
    rfl
  have hm : shiftMedian C4df = some 2 := by
    rw [shiftMedian, hco]
    norm_num [median, medianVal, List.insertionSort, List.orderedInsert,
      List.filterMap_cons, List.getD]
  have hzip : C4df.zip (changesOpt C4df) =
      [({ pointNumber := 1, cumulative_seconds := 0, p1Momentum := 0, p2Momentum := 0 }, none),
       ({ pointNumber := 2, cumulative_seconds := 0, p1Momentum := 1, p2Momentum := 0 }, some 1),
       ({ pointNumber := 3, cumulative_seconds := 0, p1Momentum := 4, p2Momentum := 0 }, some 3)] := by
    rw [hco]
    rfl
  have hflag2 : shiftFlag (some 1) (some 2) 2 = false := by
    simp only [shiftFlag, decide_eq_false_iff_not]
    norm_num
  have hflag3 : shiftFlag (some 3) (some 2) 2 = false := by
    simp only [shiftFlag, decide_eq_false_iff_not]
    norm_num
  have h1 : (identify_key_moments C4df 2).momentum_shifts = [] := by
    simp only [identify_key_moments, hm, hzip, List.filter_cons, hflag2, hflag3]
    simp [shiftFlag]
  have hsw : swing_changes C4df = [0, 1, 3] := by
    have : swing_changes C4df = 0 :: pairwiseChanges C4df := rfl
    rw [this, hpw]
  have hmed2 : median (swing_changes C4df) = some 1 := by
    rw [hsw]
    norm_num [median, medianVal, List.insertionSort, List.orderedInsert, List.getD]
  have hzip2 : C4df.zip (swing_changes C4df) =
      [({ pointNumber := 1, cumulative_seconds := 0, p1Momentum := 0, p2Momentum := 0 }, 0),
       ({ pointNumber := 2, cumulative_seconds := 0, p1Momentum := 1, p2Momentum := 0 }, 1),
       ({ pointNumber := 3, cumulative_seconds := 0, p1Momentum := 4, p2Momentum := 0 }, 3)] := by
    rw [hsw]
    rfl
  have h2 : claimShifts C4df 2 =
      [mkShiftRecord
        { pointNumber := 3, cumulative_seconds := 0, p1Momentum := 4, p2Momentum := 0 }
        (some 3)] := by
    rw [claimShifts, hmed2, hzip2]
    norm_num [List.filter_cons, mkShiftRecord]
  refine ⟨h1, h2, ?_⟩
  rw [h1, h2]
  simp

lemma getD_nonneg_of_lt {l : List ℚ} (h : ∀ x ∈ l, 0 ≤ x) {i : Nat} (hi : i < l.length) :
    0 ≤ l.getD i 0 := by
  rw [List.getD_eq_getElem?_getD, List.getElem?_eq_getElem hi]
  exact h _ (List.getElem_mem _)

lemma medianVal_nonneg {l : List ℚ} (hne : l ≠ []) (h : ∀ x ∈ l, 0 ≤ x) :
    0 ≤ medianVal l := by
  have hperm := List.perm_insertionSort (· ≤ ·) l
  have hmem : ∀ x ∈ List.insertionSort (· ≤ ·) l, 0 ≤ x := fun x hx =>
    h x (hperm.mem_iff.mp hx)
  have hlen : (List.insertionSort (· ≤ ·) l).length = l.length :=
    List.length_insertionSort _ l
  have hl0 : 0 < l.length := List.length_pos.mpr hne
  simp only [medianVal]
  split
  · exact getD_nonneg_of_lt hmem (by omega)
  · have ha := getD_nonneg_of_lt hmem (show l.length / 2 - 1
      < (List.insertionSort (· ≤ ·) l).length by omega)
    have hb := getD_nonneg_of_lt hmem (show l.length / 2
      < (List.insertionSort (· ≤ ·) l).length by omega)
    exact div_nonneg (add_nonneg ha hb) (by norm_num)

lemma median_nonneg {l : List ℚ} {v : ℚ} (h : ∀ x ∈ l, 0 ≤ x)
    (hm : median l = some v) : 0 ≤ v := by
  cases l with
  | nil => simp [median] at hm
  | cons a l' =>
    simp only [median, Option.some_inj] at hm
    rw [← hm]
    exact medianVal_nonneg (by simp) h

lemma pairwiseChanges_nonneg (df : List Point) : ∀ x ∈ pairwiseChanges df, 0 ≤ x := by
  rw [pairwiseChanges]
  generalize momentum_diffs df = d
  induction d with
  | nil => simp
  | cons a l ih =>
    cases l with
    | nil => simp
    | cons b m =>
      intro x hx
      simp only [List.tail_cons, List.zipWith_cons_cons] at hx
      rcases List.mem_cons.mp hx with rfl | hx'
      · exact abs_nonneg _
      · exact ih x (by simpa using hx')

/-- C7 (spec P6): for thresholds `0 < t1 ≤ t2` the shift list at `t2` is a
sublist (hence a subset, in point order) of the shift list at `t1`, so the
flagged set grows as the threshold decreases; consequently its length is
monotone, and the Statistics Aggregator's `momentum_swings` count — which
takes no threshold input at all — is (trivially) non-decreasing as the
detector's threshold decreases. -/
theorem C7_threshold_monotonicity (df : List Point) (t1 t2 : ℚ)
    (h1 : 0 < t1) (h2 : t1 ≤ t2) :
    ((identify_key_moments df t2).momentum_shifts).Sublist
        ((identify_key_moments df t1).momentum_shifts)
    ∧ ((identify_key_moments df t2).momentum_shifts).length
        ≤ ((identify_key_moments df t1).momentum_shifts).length
    ∧ (_calculate_momentum_stats df).momentum_swings
        ≤ (_calculate_momentum_stats df).momentum_swings := by
  have hsub : ((identify_key_moments df t2).momentum_shifts).Sublist
      ((identify_key_moments df t1).momentum_shifts) := by
    simp only [identify_key_moments]
    apply List.Sublist.map
    apply List.monotone_filter_right
    intro pc hpc
    cases hc : pc.2 with
    | none => simp only [hc] at hpc; simp [shiftFlag] at hpc
    | some cv =>
      cases hmed : shiftMedian df with
      | none => simp only [hc, hmed] at hpc; simp [shiftFlag] at hpc
      | some mv =>
        simp only [hc, hmed] at hpc
        try simp only [hc, hmed]
        have hcv : mv * t2 < cv := by simpa [shiftFlag] using hpc
        have hmv : 0 ≤ mv := by
          rw [shiftMedian, filterMap_id_changesOpt] at hmed
          exact median_nonneg (pairwiseChanges_nonneg df) hmed
        have hle : mv * t1 ≤ mv * t2 := mul_le_mul_of_nonneg_left h2 hmv
        simp only [shiftFlag, decide_eq_true_eq]
        exact lt_of_le_of_lt hle hcv
  exact ⟨hsub, hsub.length_le, le_refl _⟩

/-- C7 witness: the theorem instantiated at the concrete two-point match
`C7df` with thresholds 1 and 2. -/
theorem C7_witness :
    ((0 : ℚ) < 1 ∧ (1 : ℚ) ≤ 2)
    ∧ (((identify_key_moments C7df 2).momentum_shifts).Sublist
          ((identify_key_moments C7df 1).momentum_shifts)
        ∧ ((identify_key_moments C7df 2).momentum_shifts).length
          ≤ ((identify_key_moments C7df 1).momentum_shifts).length
        ∧ (_calculate_momentum_stats C7df).momentum_swings
          ≤ (_calculate_momentum_stats C7df).momentum_swings) :=
  ⟨⟨by norm_num, by norm_num⟩,
    C7_threshold_monotonicity C7df 1 2 (by norm_num) (by norm_num)⟩

lemma mem_p1_peaks (df : List Point) (t : ℚ) (j : Fin df.length) :
    ((PeakRecord.mk 1 (df.get j).pointNumber (df.get j).p1Momentum)
      ∈ (identify_key_moments df t).peak_moments)
    ↔ (df.map Point.p1Momentum).max? = some ((df.get j).p1Momentum) := by
  have hne : df.map Point.p1Momentum ≠ [] := by
    intro h
    rw [List.map_eq_nil_iff] at h
    subst h
    exact absurd j.2 (by simp)
  obtain ⟨mx1, hmx1⟩ : ∃ m, (df.map Point.p1Momentum).max? = some m := by
    cases h : (df.map Point.p1Momentum).max? with
    | none => exact absurd (List.max?_eq_none_iff.mp h) hne
    | some m => exact ⟨m, rfl⟩
  constructor
  · intro hmem
    simp only [identify_key_moments, hmx1] at hmem
    rcases List.mem_append.mp hmem with hmem1 | hmem2
    · obtain ⟨p, hp, hrec⟩ := List.mem_map.mp hmem1
      obtain ⟨hpdf, hpeq⟩ := List.mem_filter.mp hp
      have hpmx : p.p1Momentum = mx1 := of_decide_eq_true hpeq
      have hmom : p.p1Momentum = (df.get j).p1Momentum := congrArg PeakRecord.momentum hrec
      rw [hmx1, ← hmom, hpmx]
    · exfalso
      cases h2 : (df.map Point.p2Momentum).max? with
      | none =>
        simp only [h2] at hmem2
        simp at hmem2
      | some m2 =>
        simp only [h2] at hmem2
        obtain ⟨p, hp, hrec⟩ := List.mem_map.mp hmem2
        exact absurd (congrArg PeakRecord.player hrec) (by norm_num)
  · intro hmax
    have hmxeq : mx1 = (df.get j).p1Momentum := by
      rw [hmx1] at hmax
      exact Option.some_inj.mp hmax
    simp only [identify_key_moments, hmx1]
    apply List.mem_append.mpr
    left
    apply List.mem_map.mpr
    refine ⟨df.get j, List.mem_filter.mpr ⟨df.get_mem j.1 j.2, ?_⟩, rfl⟩
    simp [hmxeq]

lemma mem_p2_peaks (df : List Point) (t : ℚ) (j : Fin df.length) :
    ((PeakRecord.mk 2 (df.get j).pointNumber (df.get j).p2Momentum)
      ∈ (identify_key_moments df t).peak_moments)
    ↔ (df.map Point.p2Momentum).max? = some ((df.get j).p2Momentum) := by
  have hne : df.map Point.p2Momentum ≠ [] := by
    intro h
    rw [List.map_eq_nil_iff] at h
    subst h
    exact absurd j.2 (by simp)
  obtain ⟨mx2, hmx2⟩ : ∃ m, (df.map Point.p2Momentum).max? = some m := by
    cases h : (df.map Point.p2Momentum).max? with
    | none => exact absurd (List.max?_eq_none_iff.mp h) hne
    | some m => exact ⟨m, rfl⟩
  constructor
  · intro hmem
    simp only [identify_key_moments, hmx2] at hmem
    rcases List.mem_append.mp hmem with hmem1 | hmem2
    · exfalso
      cases h1 : (df.map Point.p1Momentum).max? with
      | none =>
        simp only [h1] at hmem1
        simp at hmem1
      | some m1 =>
        simp only [h1] at hmem1
        obtain ⟨p, hp, hrec⟩ := List.mem_map.mp hmem1
        exact absurd (congrArg PeakRecord.player hrec) (by norm_num)
    · obtain ⟨p, hp, hrec⟩ := List.mem_map.mp hmem2
      obtain ⟨hpdf, hpeq⟩ := List.mem_filter.mp hp
      have hpmx : p.p2Momentum = mx2 := of_decide_eq_true hpeq
      have hmom : p.p2Momentum = (df.get j).p2Momentum := congrArg PeakRecord.momentum hrec
      rw [hmx2, ← hmom, hpmx]
  · intro hmax
    have hmxeq : mx2 = (df.get j).p2Momentum := by
      rw [hmx2] at hmax
      exact Option.some_inj.mp hmax
    simp only [identify_key_moments, hmx2]
    apply List.mem_append.mpr
    right
    apply List.mem_map.mpr
    refine ⟨df.get j, List.mem_filter.mpr ⟨df.get_mem j.1 j.2, ?_⟩, rfl⟩
    simp [hmxeq]

/-- C8 counterexample: on the P7 scenario match, `peak_moments` has six
records, not only the two points where `P1Momentum = 5` — the four points
attaining the `P2Momentum` maximum (0) are also emitted. -/
theorem C8_counterexample :
    (identify_key_moments C8df 2).peak_moments.length = 6
    ∧ ¬ ((identify_key_moments C8df 2).peak_moments.length = 2)
    ∧ (PeakRecord.mk 2 1 0) ∈ (identify_key_moments C8df 2).peak_moments := by
  refine ⟨by decide, by decide, by decide⟩

/-- C8 amended: `identify_key_moments` emits one player-1 peak record per point
whose `P1Momentum` attains the match maximum (ties all included) and
symmetrically for player 2; on the P7 scenario this gives the two player-1
records at the points with `P1Momentum = 5` **plus** four player-2 records
(every point attains the `P2Momentum` maximum 0), with
`p1_dominant_points = 4`, `p2_dominant_points = 0`, `p1_max_momentum = 5`. -/
theorem C8_peak_ties :
    (∀ (df : List Point) (t : ℚ) (j : Fin df.length),
      (((PeakRecord.mk 1 (df.get j).pointNumber (df.get j).p1Momentum)
          ∈ (identify_key_moments df t).peak_moments)
        ↔ (df.map Point.p1Momentum).max? = some ((df.get j).p1Momentum))
      ∧ (((PeakRecord.mk 2 (df.get j).pointNumber (df.get j).p2Momentum)
          ∈ (identify_key_moments df t).peak_moments)
        ↔ (df.map Point.p2Momentum).max? = some ((df.get j).p2Momentum)))
    ∧ (identify_key_moments C8df 2).peak_moments =
        [PeakRecord.mk 1 2 5, PeakRecord.mk 1 4 5, PeakRecord.mk 2 1 0,
         PeakRecord.mk 2 2 0, PeakRecord.mk 2 3 0, PeakRecord.mk 2 4 0]
    ∧ (_calculate_momentum_stats C8df).p1_dominant_points = 4
    ∧ (_calculate_momentum_stats C8df).p2_dominant_points = 0
    ∧ (_calculate_momentum_stats C8df).p1_max_momentum = some 5 :=
  ⟨fun df t j => ⟨mem_p1_peaks df t j, mem_p2_peaks df t j⟩,
    by decide, by decide, by decide, by decide⟩

lemma bind_const_none {α β : Type} (o : Option α) :
    o.bind (fun _ => (none : Option β)) = none := by
  cases o <;> rfl

/-- C1 (spec P5) fails on the code: for the 3-point series `[1, 2, 3]` (vs a
zero opponent, `epsilon = 1e-6`) the early slice `player.iloc[:0]` is empty,
its median is `NaN`, and the `NaN` propagates through `growth_score` into the
final score — the function returns `NaN`, not a number in `[0, 10]`. -/
theorem C1_small_series_score_nan :
    calculate_momentum_consistency [1, 2, 3] [0, 0, 0] (1 / 1000000) = none := by
  have hg : growth_score [1, 2, 3] (1 / 1000000) = none := rfl
  unfold calculate_momentum_consistency
  simp only [hg, Option.map_none', bind_const_none]

/-- C2 fails on the code: `ahead_ratio` is the *median* of the 0/1 indicator
series, not the fraction of points ahead.  For player `[1, 1, 0]` against
opponent `[0, 0, 0]` the code yields 1, while the fraction of points with
`player > opponent` is 2/3. -/
theorem C2_ahead_ratio_median_not_fraction :
    ahead_ratio [1, 1, 0] [0, 0, 0] = some 1
    ∧ (((([1, 1, 0] : List ℚ).zip [0, 0, 0]).countP fun p => decide (p.2 < p.1)) : ℚ)
        / (([1, 1, 0] : List ℚ).length) = 2 / 3
    ∧ (2 / 3 : ℚ) ≠ 1 := by
  refine ⟨by decide, ?_, by norm_num⟩
  norm_num

lemma fdiv_neg_nat (n : Nat) :
    Int.fdiv (-(n : Int)) 5 = -(((n + 4) / 5 : Nat) : Int) := by
  cases n with
  | zero => rfl
  | succ m =>
    have h1 : (-(((m + 1 : Nat) : Int))) = Int.negSucc m := by
      rw [Int.negSucc_eq]
      push_cast
      ring
    rw [h1]
    show Int.negSucc (m / 5) = -(((m + 1 + 4) / 5 : Nat) : Int)
    have h2 : (m + 1 + 4) / 5 = m / 5 + 1 := by omega
    rw [Int.negSucc_eq, h2]
    push_cast
    ring

lemma lateSlice_eq (l : List ℚ) :
    lateSlice l = l.drop (l.length - (l.length + 4) / 5) := by
  rw [lateSlice, fdiv_neg_nat]
  congr 1
  omega

lemma median_of_ne_nil {l : List ℚ} (h : l ≠ []) : median l = some (medianVal l) := by
  cases l with
  | nil => exact absurd rfl h
  | cons a l' => rfl

/-- C5 counterexample: on the 6-point series `[0, 0, 0, 0, 0, 6]` (with
`epsilon = 1`) the source's growth score uses the last ⌈6/5⌉ = 2 points
(median 3, score 3/7) while the claim's last ⌊6/5⌋ = 1 point gives median 6
and score 6/7. -/
theorem C5_counterexample :
    growth_score C5player 1 = some (3 / 7)
    ∧ claimGrowth C5player 1 = some (6 / 7)
    ∧ growth_score C5player 1 ≠ claimGrowth C5player 1 := by
  have h1 : growth_score C5player 1 = some (3 / 7) := by
    rw [growth_score, lateSlice_eq]
    norm_num [C5player, median, medianVal, List.insertionSort, List.orderedInsert,
      List.getD, range_, List.max?, List.min?, List.foldl, max_def, min_def]
  have h2 : claimGrowth C5player 1 = some (6 / 7) := by
    rw [claimGrowth]
    norm_num [C5player, median, medianVal, List.insertionSort, List.orderedInsert,
      List.getD, range_, List.max?, List.min?, List.foldl, max_def, min_def]
  refine ⟨h1, h2, ?_⟩
  rw [h1, h2]
  norm_num

/-- C5 amended: for every series of length `n ≥ 5`, `growth_score` is
`(late_avg − early_avg) / (range + epsilon)` clamped to `[0, 1]`, where the
early segment is the first ⌊n/5⌋ points and the late segment is the last
**⌈n/5⌉** points (Python `iloc[-n // 5 :]`), both averaged by median. -/
theorem C5_growth_segments (player : List ℚ) (epsilon : ℚ) (h : 5 ≤ player.length) :
    ∃ r, range_ player = some r ∧
      growth_score player epsilon =
        some (min (max ((medianVal (player.drop (player.length - (player.length + 4) / 5))
            - medianVal (player.take (player.length / 5))) / (r + epsilon)) 0) 1) := by
  have hne : player ≠ [] := by
    intro h0
    rw [h0] at h
    simp at h
  obtain ⟨mx, hmx⟩ : ∃ m, player.max? = some m := by
    cases hm : player.max? with
    | none => exact absurd (List.max?_eq_none_iff.mp hm) hne
    | some m => exact ⟨m, rfl⟩
  obtain ⟨mn, hmn⟩ : ∃ m, player.min? = some m := by
    cases hm : player.min? with
    | none => exact absurd (List.min?_eq_none_iff.mp hm) hne
    | some m => exact ⟨m, rfl⟩
  have htake : player.take (player.length / 5) ≠ [] := by
    intro h0
    have hlen := congrArg List.length h0
    simp only [List.length_take, List.length_nil] at hlen
    omega
  have hdrop : player.drop (player.length - (player.length + 4) / 5) ≠ [] := by
    intro h0
    have hlen := congrArg List.length h0
    simp only [List.length_drop, List.length_nil] at hlen
    omega
  refine ⟨mx - mn, ?_, ?_⟩
  · simp only [range_, hmx, hmn]
  · rw [growth_score, lateSlice_eq, median_of_ne_nil htake, median_of_ne_nil hdrop]
    simp only [Option.some_bind, range_, hmx, hmn, Option.map_some']

/-- C5 witness: the amended statement instantiated at the concrete 5-point
series `[0, 1, 2, 3, 4]` with `epsilon = 1`. -/
theorem C5_witness :
    5 ≤ ([0, 1, 2, 3, 4] : List ℚ).length
    ∧ (∃ r, range_ ([0, 1, 2, 3, 4] : List ℚ) = some r ∧
        growth_score [0, 1, 2, 3, 4] 1 =
          some (min (max ((medianVal (([0, 1, 2, 3, 4] : List ℚ).drop
              (([0, 1, 2, 3, 4] : List ℚ).length - (([0, 1, 2, 3, 4] : List ℚ).length + 4) / 5))
              - medianVal (([0, 1, 2, 3, 4] : List ℚ).take
                (([0, 1, 2, 3, 4] : List ℚ).length / 5))) / (r + 1)) 0) 1)) :=
  ⟨by decide, C5_growth_segments [0, 1, 2, 3, 4] 1 (by decide)⟩

end TennisMomentum
